import Mathlib

/-!
Verification development for the lpr-api repository (TypeScript, Hono + Drizzle
over PostgreSQL).  The data model (src/db/schema.ts), the ingestion writer,
the filter/sort compilers, the history reader and the options reader
(src/db/queries.ts) are shallowly embedded as executable Lean definitions and
the claims of the specification about them are proved below.

Modelling conventions:
* machine numbers coming from JavaScript are rationals; SQL integer columns
  are Int, timestamps are Int milliseconds since the epoch;
* a nullable SQL column is an Option; SQL comparisons against NULL are false;
* the postgres case-insensitive pattern match produced by wrapping the filter
  value in percent signs is modelled as case-insensitive substring containment
  (wildcard characters inside the value itself are not modelled; no claim
  depends on them);
* startOfDay from date-fns is modelled as flooring a timestamp to its UTC day
  boundary, addDays as adding whole days of milliseconds.
-/

/-- Milliseconds in one calendar day (the date-fns day arithmetic unit). -/
def msPerDay : Int := 86400000

/-- Model of date-fns startOfDay: floor the timestamp to its day boundary. -/
def startOfDay (t : Int) : Int := msPerDay * (t / msPerDay)

/-- Model of JavaScript Math.round: floor of x + 1/2. -/
def jsRound (q : ℚ) : Int := ⌊q + 1/2⌋

/-- The detection_source postgres enum from src/db/schema.ts. -/
def detectionSourceEnumValues : List String := ["upload", "camera", "import", "api"]

/-- The vehicle_category postgres enum from src/db/schema.ts. -/
def vehicleCategoryEnumValues : List String :=
  ["car", "truck", "motorcycle", "bus", "special", "other"]

/-- A row of the license_plates table. -/
structure LicensePlateRow where
  id : Nat
  plateNumber : String
deriving DecidableEq, Repr

/-- A row of the detections table (the columns the core reads and writes). -/
structure DetectionRow where
  id : Nat
  source : Option String
  imageUrl : String
  processedImageUrl : Option String
  detectionTime : Int
  processTimeMs : Option Int
deriving DecidableEq, Repr

/-- A row of the detected_plate_results table. -/
structure ResultRow where
  id : Nat
  detectionId : Nat
  licensePlateId : Option Nat
  plateNumber : String
  normalizedPlate : Option String
  confidenceDetection : ℚ
  boundingBox : List ℚ
  ocrEngineUsed : Option String
  typeVehicle : Option String
  provinceCode : Option String
  provinceName : Option String
  plateType : Option String
  detectedColor : Option String
  isValidFormat : Option Bool
  formatDescription : Option String
deriving DecidableEq, Repr

/-- The relational store: the three tables the core touches, plus the serial
id counters (postgres serial columns start at 1). -/
structure Store where
  plates : List LicensePlateRow
  detections : List DetectionRow
  results : List ResultRow
  nextPlateId : Nat
  nextDetectionId : Nat
  nextResultId : Nat
deriving Repr

/-- The plate_type_info object nested in a backend plate analysis. -/
structure PlateTypeInfo where
  name : String
  description : String
  category : Option String
deriving DecidableEq, Repr

/-- The plate_analysis object of one backend detection (src/types.ts). -/
structure BackendPlateAnalysis where
  normalized : String
  province_code : Option String
  province_name : Option String
  plate_type : String
  plate_type_info : Option PlateTypeInfo
  detected_color : Option String
  is_valid_format : Bool
  format_description : Option String
deriving DecidableEq, Repr

/-- One detection in a backend recognition response (src/types.ts). -/
structure BackendDetection where
  plate_number : String
  confidence_detection : ℚ
  bounding_box : List ℚ
  plate_analysis : Option BackendPlateAnalysis
  ocr_engine_used : Option String
deriving DecidableEq, Repr

/-- A backend recognition response.  The detections field is Option to model
the JavaScript guard for a missing detections array. -/
structure ApiResponse where
  detections : Option (List BackendDetection)
  processed_image_url : Option String
  processing_time_ms : Option ℚ
  error : Option String
deriving DecidableEq, Repr

/-- A dynamically typed JavaScript value as it reaches the filter compiler
(the value field of one column-filter spec).  vRange models a plain object
carrying optional from and to keys; a missing key is none. -/
inductive JSValue where
  | vStr (s : String)
  | vNum (q : ℚ)
  | vBool (b : Bool)
  | vDate (t : Int)
  | vArr (xs : List JSValue)
  | vRange (fromV toV : Option JSValue)
  | vNull
  | vUndefined

/-- One column filter spec as sent by the client. -/
structure ApiFilter where
  id : String
  value : JSValue

/-- One sort spec as sent by the client. -/
structure ApiSort where
  id : String
  desc : Bool
deriving DecidableEq, Repr

/-- Pagination state. -/
structure ApiPaginationState where
  pageIndex : Nat
  pageSize : Nat
deriving DecidableEq, Repr

/-- A compiled WHERE predicate: the joined row seen by the history query is a
detected_plate_results row together with its left-joined detections row. -/
def FilterPred := ResultRow → Option DetectionRow → Bool

/-- Is one Char list a prefix of another. -/
def charTake : List Char → List Char → Bool
  | [], _ => true
  | _ :: _, [] => false
  | a :: as, b :: bs => a == b && charTake as bs

/-- Substring containment on Char lists. -/
def charSub (needle : List Char) : List Char → Bool
  | [] => charTake needle []
  | b :: bs => charTake needle (b :: bs) || charSub needle bs

/-- Model of the postgres ilike condition built from a filter value wrapped in
percent signs: case-insensitive substring containment. -/
def ilikeContains (hay v : String) : Bool :=
  charSub v.toLower.data hay.toLower.data

/-- Ilike against a nullable column: NULL matches nothing. -/
def optIlike (hay : Option String) (v : String) : Bool :=
  match hay with
  | none => false
  | some s => ilikeContains s v

/-- Does a JSValue have JavaScript type number. -/
def isNumV : JSValue → Bool
  | .vNum _ => true
  | _ => false

/-- Numeric coercion of a JSValue used once its type is known to be number. -/
def asNum : JSValue → Option ℚ
  | .vNum q => some q
  | _ => none

/-- The numeric-range branch of parseFiltersToDrizzle: the value must be an
array of exactly two entries with at least one of the two a number; min is
entry 0 and max is entry 1; confidence bounds are divided by 100.  The column
getter returns none for SQL NULL, on which the comparisons are false. -/
def compileRange (scale : Bool) (get : ResultRow → Option DetectionRow → Option ℚ) :
    List JSValue → Option FilterPred
  | [a, b] =>
    if isNumV a || isNumV b then
      some (fun r d =>
        match get r d with
        | none => false
        | some c =>
          (match asNum a with
           | some m => decide ((if scale then m / 100 else m) ≤ c)
           | none => true)
          && (match asNum b with
              | some m => decide (c ≤ (if scale then m / 100 else m))
              | none => true))
    else none
  | _ => none

/-- The date-range branch of parseFiltersToDrizzle: the object must carry a
from or a to key; a key that is present but not a Date contributes nothing;
from is floored to its day start, to is floored then advanced one day and
compared with strict less-than.  The column is detectionTime of the
left-joined detections row. -/
def compileDateRange (fromV toV : Option JSValue) : Option FilterPred :=
  if fromV.isSome || toV.isSome then
    let fromD : Option Int := match fromV with | some (.vDate t) => some t | _ => none
    let toD : Option Int := match toV with | some (.vDate t) => some t | _ => none
    if fromD.isSome || toD.isSome then
      some (fun _ d =>
        match d with
        | none => false
        | some det =>
          (match fromD with
           | some t => decide (startOfDay t ≤ det.detectionTime)
           | none => true)
          && (match toD with
              | some t => decide (det.detectionTime < startOfDay t + msPerDay)
              | none => true))
    else none
  else none

/-- A non-empty string filter value, or none: the typeof string and length
check shared by the text and enum branches of the switch. -/
def strFilterValue : JSValue → Option String
  | .vStr s => if s.length > 0 then some s else none
  | _ => none

/-- An array filter value, or none: the Array.isArray check of the numeric
range branches. -/
def arrFilterValue : JSValue → Option (List JSValue)
  | .vArr xs => some xs
  | _ => none

/-- One case of the switch in parseFiltersToDrizzle: compile a single filter
spec to an optional condition.  A spec whose id is not a filterable column, or
whose value has the wrong shape for its column, produces no condition.  The
typeVehicle and source branches additionally drop values outside their fixed
postgres enumerations; the ocrEngine column is a plain varchar and has no such
check. -/
def compileFilterSpec (f : ApiFilter) : Option FilterPred :=
  if f.id == "plateNumber" then
    (strFilterValue f.value).map (fun v => fun r _ => ilikeContains r.plateNumber v)
  else if f.id == "normalizedPlate" then
    (strFilterValue f.value).map (fun v => fun r _ => optIlike r.normalizedPlate v)
  else if f.id == "provinceName" then
    (strFilterValue f.value).map (fun v => fun r _ => optIlike r.provinceName v)
  else if f.id == "ocrEngine" then
    (strFilterValue f.value).map (fun v => fun r _ => r.ocrEngineUsed == some v)
  else if f.id == "typeVehicle" then
    match strFilterValue f.value with
    | none => none
    | some v =>
      if v ∈ vehicleCategoryEnumValues then some (fun r _ => r.typeVehicle == some v)
      else none
  else if f.id == "source" then
    match strFilterValue f.value with
    | none => none
    | some v =>
      if v ∈ detectionSourceEnumValues then
        some (fun _ d =>
          match d with
          | none => false
          | some det => det.source == some v)
      else none
  else if f.id == "confidence" then
    match arrFilterValue f.value with
    | none => none
    | some xs => compileRange true (fun r _ => some r.confidenceDetection) xs
  else if f.id == "processTime" then
    match arrFilterValue f.value with
    | none => none
    | some xs =>
      compileRange false (fun _ d => d.bind (fun det => det.processTimeMs.map (Int.cast))) xs
  else if f.id == "isValidFormat" then
    match f.value with
    | .vBool b => some (fun r _ => r.isValidFormat == some b)
    | _ => none
  else if f.id == "date" then
    match f.value with
    | .vRange fromV toV => compileDateRange fromV toV
    | _ => none
  else none

/-- parseFiltersToDrizzle: compile every spec, drop the ones producing no
condition, AND the rest; an empty condition list yields no WHERE clause. -/
def parseFiltersToDrizzle (filters : List ApiFilter) : Option FilterPred :=
  let conds := filters.filterMap compileFilterSpec
  if conds.isEmpty then none
  else some (fun r d => conds.all (fun p => p r d))

/-- Apply an optional WHERE clause: absence of a clause matches every row. -/
def applyWhere (w : Option FilterPred) (r : ResultRow) (d : Option DetectionRow) : Bool :=
  match w with
  | none => true
  | some p => p r d

/-- The sortable columns of sortColumnMap in src/db/queries.ts. -/
inductive SortCol where
  | plateNumber
  | confidence
  | date
  | provinceName
  | isValidFormat
  | ocrEngine
  | normalizedPlate
  | source
  | processTime
deriving DecidableEq, Repr

/-- Lookup in sortColumnMap: which column a sort id denotes, if any. -/
def sortColumnMap (id : String) : Option SortCol :=
  match id with
  | "plateNumber" => some .plateNumber
  | "confidence" => some .confidence
  | "date" => some .date
  | "provinceName" => some .provinceName
  | "isValidFormat" => some .isValidFormat
  | "ocrEngine" => some .ocrEngine
  | "normalizedPlate" => some .normalizedPlate
  | "source" => some .source
  | "processTime" => some .processTime
  | _ => none

/-- One compiled ORDER BY term: a column and a direction. -/
structure OrderTerm where
  col : SortCol
  descending : Bool
deriving DecidableEq, Repr

/-- parseSortingToDrizzle: no sort specs yield the single default ordering of
detection time descending; otherwise each spec yields one term, an
unrecognized id falling back to the default term for its position. -/
def parseSortingToDrizzle (sorting : List ApiSort) : List OrderTerm :=
  if sorting.isEmpty then [⟨.date, true⟩]
  else
    sorting.map (fun sort =>
      match sortColumnMap sort.id with
      | none => ⟨.date, true⟩
      | some c => ⟨c, sort.desc⟩)

/-- One row of the history page query: a detected_plate_results row with its
left-joined detections row and left-joined license_plates row. -/
structure JoinedRow where
  result : ResultRow
  detection : Option DetectionRow
  licensePlate : Option LicensePlateRow

/-- The left join of one result row against the detections and license_plates
tables (join keys detectionId and licensePlateId; a NULL licensePlateId
matches nothing). -/
def joinRow (s : Store) (r : ResultRow) : JoinedRow :=
  { result := r
    detection := s.detections.find? (fun d => d.id == r.detectionId)
    licensePlate :=
      match r.licensePlateId with
      | none => none
      | some i => s.plates.find? (fun p => p.id == i) }

/-- The fully joined base query of fetchDetectionHistory. -/
def joinRows (s : Store) : List JoinedRow := s.results.map (joinRow s)

/-- The join of the count query, which joins only the detections table. -/
def countJoin (s : Store) : List (ResultRow × Option DetectionRow) :=
  s.results.map (fun r => (r, s.detections.find? (fun d => d.id == r.detectionId)))

/-- A sort-key value: the content of one sortable column in one joined row.
A postgres enum column carries its value together with its enumeration, since
postgres orders enum values by declaration position, not alphabetically. -/
inductive ColVal where
  | vs (v : Option String)
  | vq (v : ℚ)
  | vi (v : Option Int)
  | vb (v : Option Bool)
  | ve (vals : List String) (v : Option String)

/-- Read the sort-key value of a column from a joined row.  The date, source
and processTime columns live on the left-joined detections row. -/
def getSortVal (c : SortCol) (jr : JoinedRow) : ColVal :=
  match c with
  | .plateNumber => .vs (some jr.result.plateNumber)
  | .confidence => .vq jr.result.confidenceDetection
  | .date => .vi (jr.detection.map (fun d => d.detectionTime))
  | .provinceName => .vs jr.result.provinceName
  | .isValidFormat => .vb jr.result.isValidFormat
  | .ocrEngine => .vs jr.result.ocrEngineUsed
  | .normalizedPlate => .vs jr.result.normalizedPlate
  | .source => .ve detectionSourceEnumValues (jr.detection.bind (fun d => d.source))
  | .processTime => .vi (jr.detection.bind (fun d => d.processTimeMs))

/-- Three-way comparison from a boolean strict order. -/
def cmpBy {α : Type} (lt : α → α → Bool) (a b : α) : Ordering :=
  if lt a b then .lt else if lt b a then .gt else .eq

/-- Compare optional values with NULL ordered last, as postgres does for an
ascending sort. -/
def optCmp {α : Type} (f : α → α → Ordering) : Option α → Option α → Ordering
  | none, none => .eq
  | none, some _ => .gt
  | some _, none => .lt
  | some a, some b => f a b

/-- Compare two sort-key values of the same column. -/
def colValCmp : ColVal → ColVal → Ordering
  | .vs a, .vs b => optCmp (cmpBy (fun x y => decide (x < y))) a b
  | .vq a, .vq b => cmpBy (fun x y => decide (x < y)) a b
  | .vi a, .vi b => optCmp (cmpBy (fun x y => decide (x < y))) a b
  | .vb a, .vb b => optCmp (cmpBy (fun x y => !x && y)) a b
  | .ve vals a, .ve _ b =>
    optCmp (cmpBy (fun x y => decide (vals.indexOf x < vals.indexOf y))) a b
  | _, _ => .eq

/-- Lexicographic row comparison along the compiled ORDER BY terms. -/
def rowCmp (terms : List OrderTerm) (a b : JoinedRow) : Ordering :=
  match terms with
  | [] => .eq
  | t :: rest =>
    let c := colValCmp (getSortVal t.col a) (getSortVal t.col b)
    let c := if t.descending then c.swap else c
    match c with
    | .eq => rowCmp rest a b
    | o => o

/-- The non-strict order induced by the compiled ORDER BY terms. -/
def rowLe (terms : List OrderTerm) (a b : JoinedRow) : Bool :=
  !(rowCmp terms a b == .gt)

/-- The result shape of fetchDetectionHistory. -/
structure FetchHistoryResult where
  rows : List JoinedRow
  totalRowCount : Nat

/-- fetchDetectionHistory: compile the filters once into a WHERE clause used
by both the page query and the count query; the page query joins all three
tables, filters, orders, then takes one page; the count query joins only the
detections table and counts the rows matching the same WHERE clause. -/
def fetchDetectionHistory (s : Store) (pagination : ApiPaginationState)
    (sorting : List ApiSort) (filters : List ApiFilter) : FetchHistoryResult :=
  let offset := pagination.pageIndex * pagination.pageSize
  let limit := pagination.pageSize
  let whereCondition := parseFiltersToDrizzle filters
  let orderByCondition := parseSortingToDrizzle sorting
  let pageRows :=
    ((((joinRows s).filter (fun jr => applyWhere whereCondition jr.result jr.detection)).insertionSort
        (fun a b => rowLe orderByCondition a b = true)).drop offset).take limit
  let total :=
    ((countJoin s).filter (fun rd => applyWhere whereCondition rd.1 rd.2)).length
  { rows := pageRows, totalRowCount := total }

/-- Deduplicate then sort ascending alphabetically: the semantics of a
selectDistinct query with an ascending orderBy on a varchar column. -/
def distinctSorted (l : List String) : List String :=
  l.dedup.insertionSort (fun a b => a ≤ b)

/-- Deduplicate then sort ascending by enum declaration position: the
semantics of a selectDistinct query with an ascending orderBy on a postgres
enum column, whose values sort by their position in the enumeration. -/
def distinctEnumSorted (vals : List String) (l : List String) : List String :=
  l.dedup.insertionSort (fun a b => vals.indexOf a ≤ vals.indexOf b)

/-- The result shape of getFilterOptions. -/
structure FilterOptionsResult where
  ocrEngines : List String
  vehicleTypes : List String
  sources : List String

/-- getFilterOptions: three independent distinct-value queries; the OCR
engine query drops NULL and empty strings and sorts its varchar column
alphabetically, while the vehicle type and source queries drop NULL and sort
their postgres enum columns in enum declaration order. -/
def getFilterOptions (s : Store) : FilterOptionsResult :=
  { ocrEngines :=
      distinctSorted (((s.results.filterMap (fun r => r.ocrEngineUsed)).filter (fun e => e != "")))
    vehicleTypes :=
      distinctEnumSorted vehicleCategoryEnumValues (s.results.filterMap (fun r => r.typeVehicle))
    sources :=
      distinctEnumSorted detectionSourceEnumValues (s.detections.filterMap (fun d => d.source)) }

/-- The steps of the ingestion transaction at which a storage failure can be
injected. -/
inductive TxStep where
  | insertDetection
  | upsertPlates
  | selectPlates
  | insertResults
deriving DecidableEq, Repr

/-- The single error message insertDetectionAndResults raises for any failure
inside the transaction. -/
def ingestErrorMsg : String := "Failed to save detection result via query function."

/-- The Detection row built in step 1 of the transaction: the configured
source, the original image reference, the processed image reference from the
response, the current timestamp, and the processing time rounded when it is a
number and NULL otherwise. -/
def mkDetectionRow (s : Store) (now : Int) (source : String)
    (originalImageUrl : String) (apiResponse : ApiResponse) : DetectionRow :=
  { id := s.nextDetectionId
    source := some source
    imageUrl := originalImageUrl
    processedImageUrl := apiResponse.processed_image_url
    detectionTime := now
    processTimeMs := apiResponse.processing_time_ms.map jsRound }

/-- JavaScript Set iteration order: keep the first occurrence of each
element. -/
def jsSetDedup (l : List String) : List String :=
  l.foldl (fun acc x => if x ∈ acc then acc else acc ++ [x]) []

/-- Model of the JavaScript string trim: drop whitespace from both ends. -/
def jsTrim (s : String) : String :=
  ⟨((s.data.dropWhile Char.isWhitespace).reverse.dropWhile Char.isWhitespace).reverse⟩

/-- Step 2 of the transaction: the distinct plate numbers of the response
that are truthy and not whitespace-only. -/
def uniquePlateNumbers (dets : List BackendDetection) : List String :=
  jsSetDedup ((dets.map (fun det => det.plate_number)).filter
    (fun pn => !(pn == "") && !(jsTrim pn == "")))

/-- Step 3 of the transaction: insert every plate number of the batch that is
not already present, with conflict-is-no-op semantics on the unique
plateNumber column; serial ids are assigned in order. -/
def upsertPlates (s : Store) : List String → Store
  | [] => s
  | pn :: rest =>
    if s.plates.any (fun p => p.plateNumber == pn) then upsertPlates s rest
    else
      upsertPlates
        { s with
          plates := s.plates ++ [⟨s.nextPlateId, pn⟩]
          nextPlateId := s.nextPlateId + 1 }
        rest

/-- Step 4 of the transaction: re-read the ids of all plates of the batch and
build the plate-number to id record; a later row overwrites an earlier one in
the record, so the last matching row wins. -/
def plateIdLookup (s : Store) (pns : List String) (pn : String) : Option Nat :=
  ((s.plates.filter (fun p => decide (p.plateNumber ∈ pns) && p.plateNumber == pn)).getLast?).map
    (fun p => p.id)

/-- The licensePlateId link of one result row: the plate number must be
truthy and its record entry must be truthy, else NULL. -/
def linkOf (lookup : String → Option Nat) (pn : String) : Option Nat :=
  if pn == "" then none
  else
    match lookup pn with
    | none => none
    | some i => if i == 0 then none else some i

/-- The vehicle category of one result row: the reported category must be
truthy and a member of the fixed category enumeration, else NULL. -/
def mapVehicleCategory (catV : Option String) : Option String :=
  match catV with
  | none => none
  | some c => if !(c == "") && c ∈ vehicleCategoryEnumValues then some c else none

/-- Step 5 of the transaction: build one DetectedPlateResult row for one
detection of the response. -/
def mkResultRow (detectionId : Nat) (lookup : String → Option Nat)
    (det : BackendDetection) (newId : Nat) : ResultRow :=
  let pa := det.plate_analysis
  { id := newId
    detectionId := detectionId
    licensePlateId := linkOf lookup det.plate_number
    plateNumber := det.plate_number
    normalizedPlate := pa.map (fun a => a.normalized)
    confidenceDetection := det.confidence_detection
    boundingBox := det.bounding_box
    ocrEngineUsed := det.ocr_engine_used
    typeVehicle := mapVehicleCategory ((pa.bind (fun a => a.plate_type_info)).bind (fun i => i.category))
    provinceCode := pa.bind (fun a => a.province_code)
    provinceName := pa.bind (fun a => a.province_name)
    plateType := pa.map (fun a => a.plate_type)
    detectedColor := pa.bind (fun a => a.detected_color)
    isValidFormat := pa.map (fun a => a.is_valid_format)
    formatDescription := pa.bind (fun a => a.format_description) }

/-- The batch of DetectedPlateResult rows of step 6, with serial ids assigned
in order. -/
def resultRowsFor (detectionId : Nat) (lookup : String → Option Nat) :
    List BackendDetection → Nat → List ResultRow
  | [], _ => []
  | det :: rest, nid => mkResultRow detectionId lookup det nid :: resultRowsFor detectionId lookup rest (nid + 1)

/-- Step 6 of the transaction: bulk-insert the result rows. -/
def insertResults (s : Store) (detectionId : Nat) (lookup : String → Option Nat)
    (dets : List BackendDetection) : Store :=
  { s with
    results := s.results ++ resultRowsFor detectionId lookup dets s.nextResultId
    nextResultId := s.nextResultId + dets.length }

/-- insertDetectionAndResults from src/db/queries.ts.  An empty or missing
detections list returns null without touching the store.  Otherwise the six
transaction steps run inside one atomic transaction: the failing parameter
injects a storage failure at a chosen step, and any failure rolls the whole
transaction back (the store reverts to its pre-call state, per the
transaction contract the code relies on) and is re-raised by the catch block
as the single ingestion error message.  On success the id of the created
Detection is returned. -/
def insertDetectionAndResults (failing : TxStep → Bool) (now : Int) (s : Store)
    (apiResponse : ApiResponse) (source : String) (originalImageUrl : String) :
    Store × Except String (Option Nat) :=
  match apiResponse.detections with
  | none => (s, .ok none)
  | some dets =>
    if dets.length = 0 then (s, .ok none)
    else
      if failing .insertDetection then (s, .error ingestErrorMsg)
      else
        let drow := mkDetectionRow s now source originalImageUrl apiResponse
        let s1 : Store :=
          { s with
            detections := s.detections ++ [drow]
            nextDetectionId := s.nextDetectionId + 1 }
        if drow.id == 0 then (s, .error ingestErrorMsg)
        else if failing .upsertPlates then (s, .error ingestErrorMsg)
        else
          let upns := uniquePlateNumbers dets
          let s2 := if upns.length > 0 then upsertPlates s1 upns else s1
          if failing .selectPlates then (s, .error ingestErrorMsg)
          else
            let lookup := fun pn =>
              if upns.length > 0 then plateIdLookup s2 upns pn else none
            if failing .insertResults then (s, .error ingestErrorMsg)
            else (insertResults s2 drow.id lookup dets, .ok (some drow.id))

/-- The well-formedness guard of the numeric-range branches, as one boolean:
the value is an array of exactly two entries at least one of which is a
number. -/
def isValidRangeValue : JSValue → Bool
  | .vArr [a, b] => isNumV a || isNumV b
  | _ => false

/-- A sample detected_plate_results row used to instantiate theorems. -/
def sampleResultRow : ResultRow :=
  { id := 7
    detectionId := 3
    licensePlateId := some 1
    plateNumber := "51A12345"
    normalizedPlate := some "51A-123.45"
    confidenceDetection := 1
    boundingBox := [0, 0, 10, 10]
    ocrEngineUsed := some "easyocr"
    typeVehicle := some "car"
    provinceCode := some "51"
    provinceName := some "TP. Ho Chi Minh"
    plateType := some "white"
    detectedColor := some "white"
    isValidFormat := some true
    formatDescription := some "ok" }

/-- A sample detections row used to instantiate theorems. -/
def sampleDetectionRow : DetectionRow :=
  { id := 3
    source := some "upload"
    imageUrl := "img.jpg"
    processedImageUrl := none
    detectionTime := 1700000000000
    processTimeMs := some 120 }

/-- Schema invariant: every non-NULL typeVehicle value is a member of the
vehicle_category postgres enum (enforced by the column type). -/
def vehicleEnumInv (s : Store) : Bool :=
  s.results.all (fun r =>
    match r.typeVehicle with
    | none => true
    | some c => decide (c ∈ vehicleCategoryEnumValues))

/-- Schema invariant: every non-NULL source value is a member of the
detection_source postgres enum (enforced by the column type). -/
def sourceEnumInv (s : Store) : Bool :=
  s.detections.all (fun d =>
    match d.source with
    | none => true
    | some c => decide (c ∈ detectionSourceEnumValues))

/-- A sample store used to instantiate theorems about the readers. -/
def sampleStore : Store :=
  { plates := [⟨1, "51A12345"⟩]
    detections := [sampleDetectionRow]
    results := [sampleResultRow,
      { sampleResultRow with
        id := 8
        ocrEngineUsed := some "tesseract"
        typeVehicle := some "truck" }]
    nextPlateId := 2
    nextDetectionId := 4
    nextResultId := 9 }

/-- The plate-number column of the license_plates table, as a list. -/
def plateNames (s : Store) : List String := s.plates.map (fun p => p.plateNumber)

/-- The store after step 1 of a successful transaction: the Detection row is
appended and the serial counter advances. -/
def s1Store (now : Int) (s : Store) (source url : String) (resp : ApiResponse) : Store :=
  { s with
    detections := s.detections ++ [mkDetectionRow s now source url resp]
    nextDetectionId := s.nextDetectionId + 1 }

/-- The store after steps 1 to 3 of a successful transaction: the distinct
plate numbers are upserted when there are any. -/
def s2Store (now : Int) (s : Store) (dets : List BackendDetection)
    (source url : String) (resp : ApiResponse) : Store :=
  if (uniquePlateNumbers dets).length > 0
  then upsertPlates (s1Store now s source url resp) (uniquePlateNumbers dets)
  else s1Store now s source url resp

/-- The plate-number to id record of step 4 of a successful transaction. -/
def txLookup (now : Int) (s : Store) (dets : List BackendDetection)
    (source url : String) (resp : ApiResponse) : String → Option Nat :=
  fun pn =>
    if (uniquePlateNumbers dets).length > 0
    then plateIdLookup (s2Store now s dets source url resp) (uniquePlateNumbers dets) pn
    else none

/-- The store produced by a successful ingestion transaction, spelled out as
one function for reasoning: insert the Detection, upsert the distinct plate
numbers, build the id record, insert the result rows. -/
def ingestTxResult (now : Int) (s : Store) (dets : List BackendDetection)
    (source url : String) (resp : ApiResponse) : Store :=
  insertResults (s2Store now s dets source url resp) s.nextDetectionId
    (txLookup now s dets source url resp) dets

/-- A sample detections list used to instantiate the ingestion theorems: one
plate number already stored in sampleStore and one new plate number. -/
def sampleDets : List BackendDetection :=
  [⟨"51A12345", 1, [0, 0, 1, 1], none, some "easyocr"⟩,
   ⟨"30K99999", 1, [2, 2, 3, 3], none, none⟩]

/-- A sample recognition response wrapping sampleDets. -/
def sampleResp : ApiResponse := ⟨some sampleDets, none, none, none⟩

/-- A store whose vehicle-type column holds truck and bus: in postgres enum
order truck sorts before bus, while alphabetically bus sorts before truck. -/
def enumOrderStore : Store :=
  { plates := []
    detections := []
    results :=
      [{ sampleResultRow with id := 1, typeVehicle := some "truck" },
       { sampleResultRow with id := 2, typeVehicle := some "bus" }]
    nextPlateId := 1
    nextDetectionId := 1
    nextResultId := 3 }

-- ===================================================================
-- Theorems
-- ===================================================================

theorem parse_single_some (f : ApiFilter) (p : FilterPred)
    (h : compileFilterSpec f = some p) (r : ResultRow) (d : Option DetectionRow) :
    applyWhere (parseFiltersToDrizzle [f]) r d = p r d := by
  simp [parseFiltersToDrizzle, h, applyWhere]

theorem parse_single_none (f : ApiFilter) (h : compileFilterSpec f = none) :
    parseFiltersToDrizzle [f] = none := by
  simp [parseFiltersToDrizzle, h]

theorem parse_pair_some (f g : ApiFilter) (p q : FilterPred)
    (hf : compileFilterSpec f = some p) (hg : compileFilterSpec g = some q)
    (r : ResultRow) (d : Option DetectionRow) :
    applyWhere (parseFiltersToDrizzle [f, g]) r d = (p r d && q r d) := by
  simp [parseFiltersToDrizzle, hf, hg, applyWhere]

/-- C10: a confidence or processTime filter spec whose value fails the
array-of-two-with-a-number guard is silently ignored: it compiles to no
condition, contributes nothing to the compiled predicate, and never raises. -/
theorem numeric_range_malformed_value_ignored (v : JSValue)
    (h : isValidRangeValue v = false) :
    compileFilterSpec ⟨"confidence", v⟩ = none ∧
    compileFilterSpec ⟨"processTime", v⟩ = none ∧
    parseFiltersToDrizzle [⟨"confidence", v⟩] = none ∧
    parseFiltersToDrizzle [⟨"processTime", v⟩] = none := by
  have hc : compileFilterSpec ⟨"confidence", v⟩ = none := by
    cases v with
    | vArr xs =>
      match xs with
      | [] => rfl
      | [a] => rfl
      | [a, b] =>
        simp only [isValidRangeValue] at h
        simp [compileFilterSpec, arrFilterValue, compileRange, h]
      | a :: b :: c :: rest => rfl
    | vStr s => rfl
    | vNum q => rfl
    | vBool b => rfl
    | vDate t => rfl
    | vRange f t => rfl
    | vNull => rfl
    | vUndefined => rfl
  have hp : compileFilterSpec ⟨"processTime", v⟩ = none := by
    cases v with
    | vArr xs =>
      match xs with
      | [] => rfl
      | [a] => rfl
      | [a, b] =>
        simp only [isValidRangeValue] at h
        simp [compileFilterSpec, arrFilterValue, compileRange, h]
      | a :: b :: c :: rest => rfl
    | vStr s => rfl
    | vNum q => rfl
    | vBool b => rfl
    | vDate t => rfl
    | vRange f t => rfl
    | vNull => rfl
    | vUndefined => rfl
  exact ⟨hc, hp, parse_single_none _ hc, parse_single_none _ hp⟩

/-- Witness for C10: a single number is not a valid range value and compiles
to no condition for either numeric field. -/
theorem numeric_range_malformed_value_ignored_witness :
    isValidRangeValue (.vNum 5) = false ∧
    (compileFilterSpec ⟨"confidence", .vNum 5⟩ = none ∧
     compileFilterSpec ⟨"processTime", .vNum 5⟩ = none ∧
     parseFiltersToDrizzle [⟨"confidence", .vNum 5⟩] = none ∧
     parseFiltersToDrizzle [⟨"processTime", .vNum 5⟩] = none) :=
  ⟨rfl, numeric_range_malformed_value_ignored (.vNum 5) rfl⟩

theorem compileFilterSpec_typeVehicle (v : JSValue) :
    compileFilterSpec ⟨"typeVehicle", v⟩
      = match strFilterValue v with
        | none => none
        | some s =>
          if s ∈ vehicleCategoryEnumValues then some (fun r _ => r.typeVehicle == some s)
          else none := rfl

theorem compileFilterSpec_source (v : JSValue) :
    compileFilterSpec ⟨"source", v⟩
      = match strFilterValue v with
        | none => none
        | some s =>
          if s ∈ detectionSourceEnumValues then
            some (fun _ d =>
              match d with
              | none => false
              | some det => det.source == some s)
          else none := rfl

theorem compileFilterSpec_ocrEngine (v : JSValue) :
    compileFilterSpec ⟨"ocrEngine", v⟩
      = (strFilterValue v).map (fun s => fun r _ => r.ocrEngineUsed == some s) := rfl

theorem compileFilterSpec_confidence (v : JSValue) :
    compileFilterSpec ⟨"confidence", v⟩
      = match arrFilterValue v with
        | none => none
        | some xs => compileRange true (fun r _ => some r.confidenceDetection) xs := rfl

theorem compileFilterSpec_processTime (v : JSValue) :
    compileFilterSpec ⟨"processTime", v⟩
      = match arrFilterValue v with
        | none => none
        | some xs =>
          compileRange false (fun _ d => d.bind (fun det => det.processTimeMs.map (Int.cast))) xs := rfl

theorem compileFilterSpec_date (v : JSValue) :
    compileFilterSpec ⟨"date", v⟩
      = match v with
        | .vRange fromV toV => compileDateRange fromV toV
        | _ => none := rfl

theorem strlen_pos_of_ne_empty (v : String) (hv : v ≠ "") : 0 < v.length := by
  rcases v with ⟨l⟩
  cases l with
  | nil => simp at hv
  | cons a as => simp [String.length]

/-- C7: for the enumerated-string filter fields, a non-empty value inside the
fixed enumeration compiles to an exact-equality condition (NULL columns match
nothing), while a value outside the enumeration compiles to no condition at
all, so the spec is silently ignored and the compiled filter matches every
row; the ocrEngine column has no fixed enumeration and any non-empty value
compiles to an exact-equality condition. -/
theorem enum_string_filters :
    (∀ v : String, ∀ r : ResultRow, ∀ d : Option DetectionRow,
        v ∈ vehicleCategoryEnumValues →
          applyWhere (parseFiltersToDrizzle [⟨"typeVehicle", .vStr v⟩]) r d
            = (r.typeVehicle == some v)) ∧
    (∀ v : String, v ∉ vehicleCategoryEnumValues →
        parseFiltersToDrizzle [⟨"typeVehicle", .vStr v⟩] = none ∧
        ∀ r d, applyWhere (parseFiltersToDrizzle [⟨"typeVehicle", .vStr v⟩]) r d = true) ∧
    (∀ v : String, ∀ r : ResultRow, ∀ det : DetectionRow,
        v ∈ detectionSourceEnumValues →
          applyWhere (parseFiltersToDrizzle [⟨"source", .vStr v⟩]) r (some det)
            = (det.source == some v) ∧
          applyWhere (parseFiltersToDrizzle [⟨"source", .vStr v⟩]) r none = false) ∧
    (∀ v : String, v ∉ detectionSourceEnumValues →
        parseFiltersToDrizzle [⟨"source", .vStr v⟩] = none ∧
        ∀ r d, applyWhere (parseFiltersToDrizzle [⟨"source", .vStr v⟩]) r d = true) ∧
    (∀ v : String, ∀ r : ResultRow, ∀ d : Option DetectionRow, v ≠ "" →
        applyWhere (parseFiltersToDrizzle [⟨"ocrEngine", .vStr v⟩]) r d
          = (r.ocrEngineUsed == some v)) := by
  refine ⟨?_, ?_, ?_, ?_, ?_⟩
  · intro v r d hv
    have hne : v ≠ "" := by
      intro h
      rw [h] at hv
      simp [vehicleCategoryEnumValues] at hv
    have hc : compileFilterSpec ⟨"typeVehicle", .vStr v⟩
        = some (fun r _ => r.typeVehicle == some v) := by
      rw [compileFilterSpec_typeVehicle]
      simp [strFilterValue, strlen_pos_of_ne_empty v hne, hv]
    exact parse_single_some _ _ hc r d
  · intro v hv
    have hc : compileFilterSpec ⟨"typeVehicle", .vStr v⟩ = none := by
      rw [compileFilterSpec_typeVehicle]
      by_cases hl : 0 < v.length
      · simp [strFilterValue, hl, hv]
      · simp [strFilterValue, hl]
    have hn := parse_single_none _ hc
    exact ⟨hn, fun r d => by simp [hn, applyWhere]⟩
  · intro v r det hv
    have hne : v ≠ "" := by
      intro h
      rw [h] at hv
      simp [detectionSourceEnumValues] at hv
    have hc : compileFilterSpec ⟨"source", .vStr v⟩
        = some (fun _ d =>
            match d with
            | none => false
            | some det => det.source == some v) := by
      rw [compileFilterSpec_source]
      simp [strFilterValue, strlen_pos_of_ne_empty v hne, hv]
    exact ⟨parse_single_some _ _ hc r (some det), parse_single_some _ _ hc r none⟩
  · intro v hv
    have hc : compileFilterSpec ⟨"source", .vStr v⟩ = none := by
      rw [compileFilterSpec_source]
      by_cases hl : 0 < v.length
      · simp [strFilterValue, hl, hv]
      · simp [strFilterValue, hl]
    have hn := parse_single_none _ hc
    exact ⟨hn, fun r d => by simp [hn, applyWhere]⟩
  · intro v r d hv
    have hc : compileFilterSpec ⟨"ocrEngine", .vStr v⟩
        = some (fun r _ => r.ocrEngineUsed == some v) := by
      rw [compileFilterSpec_ocrEngine]
      simp [strFilterValue, strlen_pos_of_ne_empty v hv]
    exact parse_single_some _ _ hc r d

/-- Witness for C7: instantiated at a member and a non-member of each fixed
enumeration and at a non-empty OCR engine string. -/
theorem enum_string_filters_witness :
    (applyWhere (parseFiltersToDrizzle [⟨"typeVehicle", .vStr "car"⟩]) sampleResultRow none
        = (sampleResultRow.typeVehicle == some "car")) ∧
    (parseFiltersToDrizzle [⟨"typeVehicle", .vStr "boat"⟩] = none) ∧
    (applyWhere (parseFiltersToDrizzle [⟨"source", .vStr "upload"⟩]) sampleResultRow
        (some sampleDetectionRow) = (sampleDetectionRow.source == some "upload")) ∧
    (parseFiltersToDrizzle [⟨"source", .vStr "webhook"⟩] = none) ∧
    (applyWhere (parseFiltersToDrizzle [⟨"ocrEngine", .vStr "easyocr"⟩]) sampleResultRow none
        = (sampleResultRow.ocrEngineUsed == some "easyocr")) :=
  ⟨enum_string_filters.1 "car" sampleResultRow none (by decide),
   (enum_string_filters.2.1 "boat" (by decide)).1,
   (enum_string_filters.2.2.1 "upload" sampleResultRow sampleDetectionRow (by decide)).1,
   (enum_string_filters.2.2.2.1 "webhook" (by decide)).1,
   enum_string_filters.2.2.2.2 "easyocr" sampleResultRow none (by decide)⟩

/-- C5: a date-range filter compiles to detectionTime at least the start of
the from day and strictly below the day after the start of the to day (each
side only when present), so a filter with from and to equal to one day D
matches exactly the rows whose timestamp falls anywhere inside day D. -/
theorem date_filter_inclusive_day_range :
    (∀ f t : Int, ∀ r : ResultRow, ∀ d : Option DetectionRow,
      applyWhere
          (parseFiltersToDrizzle [⟨"date", .vRange (some (.vDate f)) (some (.vDate t))⟩]) r d
        = match d with
          | none => false
          | some det =>
            decide (startOfDay f ≤ det.detectionTime ∧
              det.detectionTime < startOfDay t + msPerDay)) ∧
    (∀ f : Int, ∀ r : ResultRow, ∀ d : Option DetectionRow,
      applyWhere (parseFiltersToDrizzle [⟨"date", .vRange (some (.vDate f)) none⟩]) r d
        = match d with
          | none => false
          | some det => decide (startOfDay f ≤ det.detectionTime)) ∧
    (∀ t : Int, ∀ r : ResultRow, ∀ d : Option DetectionRow,
      applyWhere (parseFiltersToDrizzle [⟨"date", .vRange none (some (.vDate t))⟩]) r d
        = match d with
          | none => false
          | some det => decide (det.detectionTime < startOfDay t + msPerDay)) ∧
    (∀ D : Int, ∀ r : ResultRow, ∀ det : DetectionRow,
      applyWhere
          (parseFiltersToDrizzle [⟨"date", .vRange (some (.vDate D)) (some (.vDate D))⟩]) r
          (some det)
        = decide (det.detectionTime / msPerDay = D / msPerDay)) := by
  have h2 : ∀ f t : Int, ∀ r : ResultRow, ∀ d : Option DetectionRow,
      applyWhere
          (parseFiltersToDrizzle [⟨"date", .vRange (some (.vDate f)) (some (.vDate t))⟩]) r d
        = match d with
          | none => false
          | some det =>
            decide (startOfDay f ≤ det.detectionTime ∧
              det.detectionTime < startOfDay t + msPerDay) := by
    intro f t r d
    have hc : compileFilterSpec ⟨"date", .vRange (some (.vDate f)) (some (.vDate t))⟩
        = some (fun _ d =>
            match d with
            | none => false
            | some det =>
              decide (startOfDay f ≤ det.detectionTime)
                && decide (det.detectionTime < startOfDay t + msPerDay)) := rfl
    rw [parse_single_some _ _ hc r d]
    cases d with
    | none => rfl
    | some det => simp
  refine ⟨h2, ?_, ?_, ?_⟩
  · intro f r d
    have hc : compileFilterSpec ⟨"date", .vRange (some (.vDate f)) none⟩
        = some (fun _ d =>
            match d with
            | none => false
            | some det => decide (startOfDay f ≤ det.detectionTime) && true) := rfl
    rw [parse_single_some _ _ hc r d]
    cases d with
    | none => rfl
    | some det => simp
  · intro t r d
    have hc : compileFilterSpec ⟨"date", .vRange none (some (.vDate t))⟩
        = some (fun _ d =>
            match d with
            | none => false
            | some det => true && decide (det.detectionTime < startOfDay t + msPerDay)) := rfl
    rw [parse_single_some _ _ hc r d]
    cases d with
    | none => rfl
    | some det => simp
  · intro D r det
    rw [h2 D D r (some det)]
    have hiff : (startOfDay D ≤ det.detectionTime ∧
          det.detectionTime < startOfDay D + msPerDay)
        ↔ det.detectionTime / msPerDay = D / msPerDay := by
      simp only [startOfDay, msPerDay]
      omega
    simp [hiff]

/-- C6: confidence and processTime filters accept an independent optional min
and max, also as two separate specs sharing one id, whose compiled predicate
equals the single two-sided range condition; confidence bounds are divided by
100 before comparison, in particular min 50 matches exactly confidence at
least one half, while processTime bounds are compared unscaled against the
left-joined processing-time column. -/
theorem numeric_range_filters :
    (∀ m : ℚ, ∀ r : ResultRow, ∀ d : Option DetectionRow,
      applyWhere (parseFiltersToDrizzle [⟨"confidence", .vArr [.vNum m, .vUndefined]⟩]) r d
        = decide (m / 100 ≤ r.confidenceDetection)) ∧
    (∀ M : ℚ, ∀ r : ResultRow, ∀ d : Option DetectionRow,
      applyWhere (parseFiltersToDrizzle [⟨"confidence", .vArr [.vUndefined, .vNum M]⟩]) r d
        = decide (r.confidenceDetection ≤ M / 100)) ∧
    (∀ m M : ℚ, ∀ r : ResultRow, ∀ d : Option DetectionRow,
      applyWhere (parseFiltersToDrizzle [⟨"confidence", .vArr [.vNum m, .vNum M]⟩]) r d
        = decide (m / 100 ≤ r.confidenceDetection ∧ r.confidenceDetection ≤ M / 100)) ∧
    (∀ m M : ℚ, ∀ r : ResultRow, ∀ d : Option DetectionRow,
      applyWhere
          (parseFiltersToDrizzle
            [⟨"confidence", .vArr [.vNum m, .vUndefined]⟩,
             ⟨"confidence", .vArr [.vUndefined, .vNum M]⟩]) r d
        = applyWhere (parseFiltersToDrizzle [⟨"confidence", .vArr [.vNum m, .vNum M]⟩]) r d) ∧
    (∀ r : ResultRow, ∀ d : Option DetectionRow,
      applyWhere (parseFiltersToDrizzle [⟨"confidence", .vArr [.vNum 50, .vUndefined]⟩]) r d
        = decide ((1 : ℚ) / 2 ≤ r.confidenceDetection)) ∧
    (∀ m M : ℚ, ∀ r : ResultRow, ∀ d : Option DetectionRow,
      applyWhere (parseFiltersToDrizzle [⟨"processTime", .vArr [.vNum m, .vNum M]⟩]) r d
        = match d with
          | none => false
          | some det =>
            match det.processTimeMs with
            | none => false
            | some v => decide (m ≤ (v : ℚ) ∧ (v : ℚ) ≤ M)) ∧
    (∀ m M : ℚ, ∀ r : ResultRow, ∀ d : Option DetectionRow,
      applyWhere
          (parseFiltersToDrizzle
            [⟨"processTime", .vArr [.vNum m, .vUndefined]⟩,
             ⟨"processTime", .vArr [.vUndefined, .vNum M]⟩]) r d
        = applyWhere (parseFiltersToDrizzle [⟨"processTime", .vArr [.vNum m, .vNum M]⟩]) r d) := by
  have cmin : ∀ m : ℚ, compileFilterSpec ⟨"confidence", .vArr [.vNum m, .vUndefined]⟩
      = some (fun r _ => decide (m / 100 ≤ r.confidenceDetection) && true) := fun m => rfl
  have cmax : ∀ M : ℚ, compileFilterSpec ⟨"confidence", .vArr [.vUndefined, .vNum M]⟩
      = some (fun r _ => true && decide (r.confidenceDetection ≤ M / 100)) := fun M => rfl
  have cboth : ∀ m M : ℚ, compileFilterSpec ⟨"confidence", .vArr [.vNum m, .vNum M]⟩
      = some (fun r _ =>
          decide (m / 100 ≤ r.confidenceDetection)
            && decide (r.confidenceDetection ≤ M / 100)) := fun m M => rfl
  have pget : ∀ (d : Option DetectionRow),
      (d.bind (fun det => det.processTimeMs.map (Int.cast : Int → ℚ)))
        = match d with
          | none => none
          | some det => det.processTimeMs.map (Int.cast : Int → ℚ) := by
    intro d
    cases d <;> rfl
  have pmin : ∀ m : ℚ, compileFilterSpec ⟨"processTime", .vArr [.vNum m, .vUndefined]⟩
      = some (fun _ d =>
          match d.bind (fun det => det.processTimeMs.map (Int.cast : Int → ℚ)) with
          | none => false
          | some c => decide (m ≤ c) && true) := fun m => rfl
  have pmax : ∀ M : ℚ, compileFilterSpec ⟨"processTime", .vArr [.vUndefined, .vNum M]⟩
      = some (fun _ d =>
          match d.bind (fun det => det.processTimeMs.map (Int.cast : Int → ℚ)) with
          | none => false
          | some c => true && decide (c ≤ M)) := fun M => rfl
  have pboth : ∀ m M : ℚ, compileFilterSpec ⟨"processTime", .vArr [.vNum m, .vNum M]⟩
      = some (fun _ d =>
          match d.bind (fun det => det.processTimeMs.map (Int.cast : Int → ℚ)) with
          | none => false
          | some c => decide (m ≤ c) && decide (c ≤ M)) := fun m M => rfl
  refine ⟨?_, ?_, ?_, ?_, ?_, ?_, ?_⟩
  · intro m r d
    rw [parse_single_some _ _ (cmin m) r d]
    simp
  · intro M r d
    rw [parse_single_some _ _ (cmax M) r d]
    simp
  · intro m M r d
    rw [parse_single_some _ _ (cboth m M) r d]
    simp
  · intro m M r d
    rw [parse_pair_some _ _ _ _ (cmin m) (cmax M) r d,
      parse_single_some _ _ (cboth m M) r d]
    simp
  · intro r d
    rw [parse_single_some _ _ (cmin 50) r d]
    have h50 : (50 : ℚ) / 100 = 1 / 2 := by norm_num
    simp [h50]
  · intro m M r d
    rw [parse_single_some _ _ (pboth m M) r d]
    cases d with
    | none => rfl
    | some det =>
      cases hpt : det.processTimeMs with
      | none => simp [hpt]
      | some v => simp [hpt]
  · intro m M r d
    rw [parse_pair_some _ _ _ _ (pmin m) (pmax M) r d,
      parse_single_some _ _ (pboth m M) r d]
    cases d with
    | none => rfl
    | some det =>
      cases hpt : det.processTimeMs with
      | none => simp [hpt]
      | some v => simp [hpt]

theorem length_filter_map {α β : Type} (f : α → β) (q : β → Bool) (l : List α) :
    ((l.map f).filter q).length = (l.filter (fun a => q (f a))).length := by
  induction l with
  | nil => rfl
  | cons a t ih =>
    simp only [List.map_cons, List.filter_cons]
    cases q (f a) <;> simp [ih]

/-- C4: fetchDetectionHistory compiles the filters once, returns as rows the
slice of the filtered ordered joined result set starting at offset pageIndex
times pageSize with at most pageSize rows, and returns as totalRowCount the
number of joined rows matching that same compiled predicate; the page length
is exactly the minimum of pageSize and the matching rows remaining past the
offset. -/
theorem fetch_history_page_and_count (s : Store) (p : ApiPaginationState)
    (sorting : List ApiSort) (filters : List ApiFilter) :
    (fetchDetectionHistory s p sorting filters).rows
      = ((((joinRows s).filter
            (fun jr => applyWhere (parseFiltersToDrizzle filters) jr.result jr.detection)).insertionSort
            (fun a b => rowLe (parseSortingToDrizzle sorting) a b = true)).drop
            (p.pageIndex * p.pageSize)).take p.pageSize ∧
    (fetchDetectionHistory s p sorting filters).totalRowCount
      = ((joinRows s).filter
          (fun jr => applyWhere (parseFiltersToDrizzle filters) jr.result jr.detection)).length ∧
    (fetchDetectionHistory s p sorting filters).rows.length
      = min p.pageSize
          (((joinRows s).filter
              (fun jr => applyWhere (parseFiltersToDrizzle filters) jr.result jr.detection)).length
            - p.pageIndex * p.pageSize) := by
  have hcount : (fetchDetectionHistory s p sorting filters).totalRowCount
      = ((joinRows s).filter
          (fun jr => applyWhere (parseFiltersToDrizzle filters) jr.result jr.detection)).length := by
    show ((countJoin s).filter
        (fun rd => applyWhere (parseFiltersToDrizzle filters) rd.1 rd.2)).length = _
    unfold countJoin joinRows
    rw [length_filter_map, length_filter_map]
    rfl
  refine ⟨rfl, hcount, ?_⟩
  have hperm := List.perm_insertionSort
    (fun a b => rowLe (parseSortingToDrizzle sorting) a b = true)
    ((joinRows s).filter
      (fun jr => applyWhere (parseFiltersToDrizzle filters) jr.result jr.detection))
  have hrows : (fetchDetectionHistory s p sorting filters).rows
      = ((((joinRows s).filter
            (fun jr => applyWhere (parseFiltersToDrizzle filters) jr.result jr.detection)).insertionSort
            (fun a b => rowLe (parseSortingToDrizzle sorting) a b = true)).drop
            (p.pageIndex * p.pageSize)).take p.pageSize := rfl
  rw [hrows, List.length_take, List.length_drop, hperm.length_eq]

theorem distinctSorted_sorted (l : List String) :
    (distinctSorted l).Sorted (fun a b => a ≤ b) :=
  List.sorted_insertionSort _ _

theorem distinctSorted_nodup (l : List String) : (distinctSorted l).Nodup :=
  ((List.perm_insertionSort _ _).nodup_iff).mpr (List.nodup_dedup l)

theorem distinctSorted_mem (l : List String) (x : String) :
    x ∈ distinctSorted l ↔ x ∈ l := by
  rw [distinctSorted, (List.perm_insertionSort _ _).mem_iff, List.mem_dedup]

theorem distinctEnumSorted_sorted (vals l : List String) :
    (distinctEnumSorted vals l).Sorted (fun a b => vals.indexOf a ≤ vals.indexOf b) := by
  haveI h1 : IsTotal String (fun a b => vals.indexOf a ≤ vals.indexOf b) :=
    ⟨fun a b => Nat.le_total _ _⟩
  haveI h2 : IsTrans String (fun a b => vals.indexOf a ≤ vals.indexOf b) :=
    ⟨fun a b c hab hbc => Nat.le_trans hab hbc⟩
  exact List.sorted_insertionSort _ _

theorem distinctEnumSorted_nodup (vals l : List String) :
    (distinctEnumSorted vals l).Nodup :=
  ((List.perm_insertionSort _ _).nodup_iff).mpr (List.nodup_dedup l)

theorem distinctEnumSorted_mem (vals l : List String) (x : String) :
    x ∈ distinctEnumSorted vals l ↔ x ∈ l := by
  rw [distinctEnumSorted, (List.perm_insertionSort _ _).mem_iff, List.mem_dedup]

/-- Counterexample for C9 read as alphabetical sortedness: on a store holding
the vehicle types truck and bus, getFilterOptions returns them in enum
declaration order, truck before bus, which is not ascending under the string
order. -/
theorem filter_options_not_alphabetical :
    (getFilterOptions enumOrderStore).vehicleTypes = ["truck", "bus"] ∧
    ¬ List.Sorted (fun a b : String => a ≤ b) ["truck", "bus"] :=
  ⟨by decide, by
    intro h
    have h1 : ("truck" : String) ≤ "bus" := List.rel_of_sorted_cons h "bus" (by simp)
    simp at h1
    exact absurd h1 (by decide)⟩

/-- C9 (amended): getFilterOptions returns three independently computed
distinct-value lists with no duplicates, no null and no empty-string entries,
containing only values present in some stored row; each list is sorted
ascending in the order its column type carries: the OCR engine varchar column
alphabetically, the vehicle type and source postgres enum columns by enum
declaration position.  The enum lists exclude the empty string because their
columns only hold members of their enumerations, which are all non-empty. -/
theorem filter_options_distinct_enum_sorted (s : Store)
    (hveh : vehicleEnumInv s = true) (hsrc : sourceEnumInv s = true) :
    ((getFilterOptions s).ocrEngines.Sorted (fun a b => a ≤ b) ∧
      (getFilterOptions s).ocrEngines.Nodup ∧
      "" ∉ (getFilterOptions s).ocrEngines ∧
      ∀ x ∈ (getFilterOptions s).ocrEngines, ∃ r ∈ s.results, r.ocrEngineUsed = some x) ∧
    ((getFilterOptions s).vehicleTypes.Sorted
        (fun a b => vehicleCategoryEnumValues.indexOf a ≤ vehicleCategoryEnumValues.indexOf b) ∧
      (getFilterOptions s).vehicleTypes.Nodup ∧
      "" ∉ (getFilterOptions s).vehicleTypes ∧
      ∀ x ∈ (getFilterOptions s).vehicleTypes, ∃ r ∈ s.results, r.typeVehicle = some x) ∧
    ((getFilterOptions s).sources.Sorted
        (fun a b => detectionSourceEnumValues.indexOf a ≤ detectionSourceEnumValues.indexOf b) ∧
      (getFilterOptions s).sources.Nodup ∧
      "" ∉ (getFilterOptions s).sources ∧
      ∀ x ∈ (getFilterOptions s).sources, ∃ d ∈ s.detections, d.source = some x) := by
  simp only [vehicleEnumInv, List.all_eq_true] at hveh
  simp only [sourceEnumInv, List.all_eq_true] at hsrc
  have hmemE : ∀ x, x ∈ (getFilterOptions s).ocrEngines
      ↔ (x ∈ s.results.filterMap (fun r => r.ocrEngineUsed) ∧ x ≠ "") := by
    intro x
    show x ∈ distinctSorted _ ↔ _
    rw [distinctSorted_mem, List.mem_filter]
    simp
  have hmemV : ∀ x, x ∈ (getFilterOptions s).vehicleTypes
      ↔ x ∈ s.results.filterMap (fun r => r.typeVehicle) := by
    intro x
    show x ∈ distinctEnumSorted _ _ ↔ _
    rw [distinctEnumSorted_mem]
  have hmemS : ∀ x, x ∈ (getFilterOptions s).sources
      ↔ x ∈ s.detections.filterMap (fun d => d.source) := by
    intro x
    show x ∈ distinctEnumSorted _ _ ↔ _
    rw [distinctEnumSorted_mem]
  refine ⟨⟨distinctSorted_sorted _, distinctSorted_nodup _, ?_, ?_⟩,
    ⟨distinctEnumSorted_sorted _ _, distinctEnumSorted_nodup _ _, ?_, ?_⟩,
    ⟨distinctEnumSorted_sorted _ _, distinctEnumSorted_nodup _ _, ?_, ?_⟩⟩
  · intro hmem
    exact ((hmemE "").mp hmem).2 rfl
  · intro x hx
    have := ((hmemE x).mp hx).1
    rw [List.mem_filterMap] at this
    obtain ⟨r, hr, heq⟩ := this
    exact ⟨r, hr, heq⟩
  · intro hmem
    have := (hmemV "").mp hmem
    rw [List.mem_filterMap] at this
    obtain ⟨r, hr, heq⟩ := this
    have := hveh r hr
    rw [heq] at this
    simp [vehicleCategoryEnumValues] at this
  · intro x hx
    have := (hmemV x).mp hx
    rw [List.mem_filterMap] at this
    obtain ⟨r, hr, heq⟩ := this
    exact ⟨r, hr, heq⟩
  · intro hmem
    have := (hmemS "").mp hmem
    rw [List.mem_filterMap] at this
    obtain ⟨d, hd, heq⟩ := this
    have := hsrc d hd
    rw [heq] at this
    simp [detectionSourceEnumValues] at this
  · intro x hx
    have := (hmemS x).mp hx
    rw [List.mem_filterMap] at this
    obtain ⟨d, hd, heq⟩ := this
    exact ⟨d, hd, heq⟩

/-- Witness for C9 (amended): the options lists of the sample store are
sorted in their column orders, free of duplicates and empty strings, and
drawn from stored rows. -/
theorem filter_options_distinct_enum_sorted_witness :
    ((getFilterOptions sampleStore).ocrEngines.Sorted (fun a b => a ≤ b) ∧
      (getFilterOptions sampleStore).ocrEngines.Nodup ∧
      "" ∉ (getFilterOptions sampleStore).ocrEngines ∧
      ∀ x ∈ (getFilterOptions sampleStore).ocrEngines,
        ∃ r ∈ sampleStore.results, r.ocrEngineUsed = some x) ∧
    ((getFilterOptions sampleStore).vehicleTypes.Sorted
        (fun a b => vehicleCategoryEnumValues.indexOf a ≤ vehicleCategoryEnumValues.indexOf b) ∧
      (getFilterOptions sampleStore).vehicleTypes.Nodup ∧
      "" ∉ (getFilterOptions sampleStore).vehicleTypes ∧
      ∀ x ∈ (getFilterOptions sampleStore).vehicleTypes,
        ∃ r ∈ sampleStore.results, r.typeVehicle = some x) ∧
    ((getFilterOptions sampleStore).sources.Sorted
        (fun a b => detectionSourceEnumValues.indexOf a ≤ detectionSourceEnumValues.indexOf b) ∧
      (getFilterOptions sampleStore).sources.Nodup ∧
      "" ∉ (getFilterOptions sampleStore).sources ∧
      ∀ x ∈ (getFilterOptions sampleStore).sources,
        ∃ d ∈ sampleStore.detections, d.source = some x) :=
  filter_options_distinct_enum_sorted sampleStore (by decide) (by decide)

/-- C3: a recognition response whose detections list is missing or empty
makes insertDetectionAndResults return null without performing any write:
the store is returned unchanged. -/
theorem ingest_empty_response_no_writes (failing : TxStep → Bool) (now : Int)
    (s : Store) (resp : ApiResponse) (source url : String)
    (h : resp.detections = none ∨ resp.detections = some []) :
    insertDetectionAndResults failing now s resp source url = (s, .ok none) := by
  rcases h with h | h <;> simp [insertDetectionAndResults, h]

/-- Witness for C3: an empty response against the sample store. -/
theorem ingest_empty_response_no_writes_witness :
    insertDetectionAndResults (fun _ => false) 0 sampleStore
        ⟨some [], none, none, none⟩ "upload" "img.jpg"
      = (sampleStore, .ok none) :=
  ingest_empty_response_no_writes (fun _ => false) 0 sampleStore
    ⟨some [], none, none, none⟩ "upload" "img.jpg" (Or.inr rfl)

/-- C1: any storage failure inside the ingestion transaction rolls the whole
transaction back: the store is exactly its pre-call state, no Detection,
LicensePlate or DetectedPlateResult row from the call persists, and the call
surfaces the single ingestion error, which is distinct from the null result
returned for empty input. -/
theorem ingest_failure_rolls_back (failing : TxStep → Bool) (now : Int) (s : Store)
    (resp : ApiResponse) (source url : String) (dets : List BackendDetection)
    (hdet : resp.detections = some dets) (hne : dets ≠ [])
    (hfail : (failing .insertDetection || failing .upsertPlates ||
        failing .selectPlates || failing .insertResults) = true) :
    insertDetectionAndResults failing now s resp source url = (s, .error ingestErrorMsg) ∧
    (Except.error ingestErrorMsg ≠ (Except.ok none : Except String (Option Nat))) := by
  have hlen : ¬dets.length = 0 := fun h => hne (List.length_eq_zero.mp h)
  refine ⟨?_, by simp⟩
  by_cases h1 : failing TxStep.insertDetection
  · simp [insertDetectionAndResults, hdet, hlen, h1]
  · by_cases h0 : s.nextDetectionId = 0
    · simp [insertDetectionAndResults, hdet, hlen, h1, mkDetectionRow, h0]
    · by_cases h2 : failing TxStep.upsertPlates
      · simp [insertDetectionAndResults, hdet, hlen, h1, mkDetectionRow, h0, h2]
      · by_cases h3 : failing TxStep.selectPlates
        · simp [insertDetectionAndResults, hdet, hlen, h1, mkDetectionRow, h0, h2, h3]
        · by_cases h4 : failing TxStep.insertResults
          · simp [insertDetectionAndResults, hdet, hlen, h1, mkDetectionRow, h0, h2, h3, h4]
          · simp [h1, h2, h3, h4] at hfail

/-- Witness for C1: a failure injected at the plate-results insert step
leaves the sample store untouched and surfaces the ingestion error. -/
theorem ingest_failure_rolls_back_witness :
    insertDetectionAndResults (fun st => st == TxStep.insertResults) 0 sampleStore
        ⟨some [⟨"30K99999", 1, [0, 0, 1, 1], none, none⟩], none, none, none⟩ "upload" "img.jpg"
      = (sampleStore, .error ingestErrorMsg) ∧
    (Except.error ingestErrorMsg ≠ (Except.ok none : Except String (Option Nat))) :=
  ingest_failure_rolls_back (fun st => st == TxStep.insertResults) 0 sampleStore
    ⟨some [⟨"30K99999", 1, [0, 0, 1, 1], none, none⟩], none, none, none⟩ "upload" "img.jpg"
    [⟨"30K99999", 1, [0, 0, 1, 1], none, none⟩] rfl (by decide) (by decide)

theorem jsSetDedup_mem_aux (l : List String) :
    ∀ acc x, (x ∈ l.foldl (fun acc x => if x ∈ acc then acc else acc ++ [x]) acc)
      ↔ x ∈ acc ∨ x ∈ l := by
  induction l with
  | nil => intro acc x; simp
  | cons a t ih =>
    intro acc x
    simp only [List.foldl_cons]
    by_cases ha : a ∈ acc
    · rw [if_pos ha, ih]
      constructor
      · rintro (h | h)
        · exact Or.inl h
        · exact Or.inr (List.mem_cons_of_mem a h)
      · rintro (h | h)
        · exact Or.inl h
        · rcases List.mem_cons.mp h with rfl | h
          · exact Or.inl ha
          · exact Or.inr h
    · rw [if_neg ha, ih]
      simp only [List.mem_append, List.mem_singleton, List.mem_cons]
      tauto
  
theorem jsSetDedup_mem (l : List String) (x : String) :
    x ∈ jsSetDedup l ↔ x ∈ l := by
  rw [jsSetDedup, jsSetDedup_mem_aux]
  simp

theorem upsert_preserves_others (l : List String) :
    ∀ s : Store, (upsertPlates s l).detections = s.detections ∧
      (upsertPlates s l).results = s.results ∧
      (upsertPlates s l).nextResultId = s.nextResultId := by
  induction l with
  | nil => intro s; exact ⟨rfl, rfl, rfl⟩
  | cons pn rest ih =>
    intro s
    rw [upsertPlates]
    by_cases h : s.plates.any (fun p => p.plateNumber == pn)
    · rw [if_pos h]; exact ih s
    · rw [if_neg h]; exact ih _

theorem upsert_mem (l : List String) :
    ∀ s : Store, ∀ pn, pn ∈ plateNames (upsertPlates s l) ↔ pn ∈ plateNames s ∨ pn ∈ l := by
  induction l with
  | nil => intro s pn; simp [upsertPlates]
  | cons a rest ih =>
    intro s pn
    rw [upsertPlates]
    by_cases h : s.plates.any (fun p => p.plateNumber == a)
    · rw [if_pos h, ih]
      have ha : a ∈ plateNames s := by
        rcases List.any_eq_true.mp h with ⟨p, hp, he⟩
        exact List.mem_map.mpr ⟨p, hp, (beq_iff_eq.mp he)⟩
      constructor
      · rintro (hh | hh)
        · exact Or.inl hh
        · exact Or.inr (List.mem_cons_of_mem a hh)
      · rintro (hh | hh)
        · exact Or.inl hh
        · rcases List.mem_cons.mp hh with rfl | hh
          · exact Or.inl ha
          · exact Or.inr hh
    · rw [if_neg h, ih]
      simp only [plateNames, List.map_append, List.map_cons, List.map_nil, List.mem_append,
        List.mem_singleton, List.mem_cons]
      tauto

theorem upsert_nodup (l : List String) :
    ∀ s : Store, (plateNames s).Nodup → (plateNames (upsertPlates s l)).Nodup := by
  induction l with
  | nil => intro s hs; exact hs
  | cons a rest ih =>
    intro s hs
    rw [upsertPlates]
    by_cases h : s.plates.any (fun p => p.plateNumber == a)
    · rw [if_pos h]; exact ih s hs
    · rw [if_neg h]
      refine ih _ ?_
      have hna : a ∉ plateNames s := by
        intro hmem
        rcases List.mem_map.mp hmem with ⟨p, hp, he⟩
        exact h (List.any_eq_true.mpr ⟨p, hp, beq_iff_eq.mpr he⟩)
      simp only [plateNames, List.map_append, List.map_cons, List.map_nil]
      rw [List.nodup_append]
      refine ⟨hs, List.nodup_singleton a, ?_⟩
      intro x hx hx2
      rw [List.mem_singleton] at hx2
      subst hx2
      exact hna hx

theorem upsert_superset (l : List String) :
    ∀ s : Store, ∀ q ∈ s.plates, q ∈ (upsertPlates s l).plates := by
  induction l with
  | nil => intro s q hq; exact hq
  | cons a rest ih =>
    intro s q hq
    rw [upsertPlates]
    by_cases h : s.plates.any (fun p => p.plateNumber == a)
    · rw [if_pos h]; exact ih s q hq
    · rw [if_neg h]
      exact ih _ q (by simp [hq])

theorem upsert_new (l : List String) :
    ∀ s : Store, ∀ q ∈ (upsertPlates s l).plates,
      q ∈ s.plates ∨ q.plateNumber ∉ plateNames s := by
  induction l with
  | nil => intro s q hq; exact Or.inl hq
  | cons a rest ih =>
    intro s q hq
    rw [upsertPlates] at hq
    by_cases h : s.plates.any (fun p => p.plateNumber == a)
    · rw [if_pos h] at hq; exact ih s q hq
    · rw [if_neg h] at hq
      have hna : a ∉ plateNames s := by
        intro hmem
        rcases List.mem_map.mp hmem with ⟨p, hp, he⟩
        exact h (List.any_eq_true.mpr ⟨p, hp, beq_iff_eq.mpr he⟩)
      rcases ih _ q hq with hq2 | hq2
      · rcases List.mem_append.mp hq2 with hq3 | hq3
        · exact Or.inl hq3
        · right
          rcases List.mem_singleton.mp hq3 with rfl
          exact hna
      · right
        intro hmem
        refine hq2 ?_
        simp only [plateNames, List.map_append, List.map_cons, List.map_nil, List.mem_append]
        exact Or.inl hmem

theorem upsert_id_pos (l : List String) :
    ∀ s : Store, (∀ p ∈ s.plates, 0 < p.id) → 0 < s.nextPlateId →
      ∀ p ∈ (upsertPlates s l).plates, 0 < p.id := by
  induction l with
  | nil => intro s hpos _ p hp; exact hpos p hp
  | cons a rest ih =>
    intro s hpos hnext
    rw [upsertPlates]
    by_cases h : s.plates.any (fun p => p.plateNumber == a)
    · rw [if_pos h]; exact ih s hpos hnext
    · rw [if_neg h]
      refine ih _ ?_ (by simp)
      intro p hp
      rcases List.mem_append.mp hp with hp2 | hp2
      · exact hpos p hp2
      · rcases List.mem_singleton.mp hp2 with rfl
        exact hnext

theorem filter_eq_single_of_nodup :
    ∀ (l : List LicensePlateRow), (l.map (fun p => p.plateNumber)).Nodup →
      ∀ p ∈ l, l.filter (fun q => q.plateNumber == p.plateNumber) = [p] := by
  intro l
  induction l with
  | nil => intro _ p hp; exact absurd hp (List.not_mem_nil p)
  | cons a t ih =>
    intro hnd p hp
    simp only [List.map_cons, List.nodup_cons] at hnd
    rcases List.mem_cons.mp hp with rfl | hp2
    · rw [List.filter_cons_of_pos (by simp)]
      have ht : t.filter (fun q => q.plateNumber == p.plateNumber) = [] := by
        rw [List.filter_eq_nil_iff]
        intro q hq he
        exact hnd.1 (List.mem_map.mpr ⟨q, hq, beq_iff_eq.mp he⟩)
      rw [ht]
    · have hne : (a.plateNumber == p.plateNumber) = false := by
        rw [beq_eq_false_iff_ne]
        intro he
        exact hnd.1 (List.mem_map.mpr ⟨p, hp2, he.symm⟩)
      rw [List.filter_cons_of_neg (by simp [hne]), ih hnd.2 p hp2]

theorem plateIdLookup_found (s : Store) (pns : List String) (p : LicensePlateRow)
    (hnd : (plateNames s).Nodup) (hp : p ∈ s.plates) (hin : p.plateNumber ∈ pns) :
    plateIdLookup s pns p.plateNumber = some p.id := by
  have hfe : s.plates.filter
        (fun q => decide (q.plateNumber ∈ pns) && q.plateNumber == p.plateNumber)
      = s.plates.filter (fun q => q.plateNumber == p.plateNumber) := by
    refine List.filter_congr ?_
    intro q hq
    by_cases he : q.plateNumber = p.plateNumber
    · rw [he]
      simp [hin]
    · simp [beq_eq_false_iff_ne.mpr he]
  rw [plateIdLookup, hfe, filter_eq_single_of_nodup s.plates hnd p hp]
  rfl

theorem resultRowsFor_length (did : Nat) (lookup : String → Option Nat) :
    ∀ (dets : List BackendDetection) (nid : Nat),
      (resultRowsFor did lookup dets nid).length = dets.length := by
  intro dets
  induction dets with
  | nil => intro nid; rfl
  | cons det rest ih =>
    intro nid
    rw [resultRowsFor, List.length_cons, ih, List.length_cons]

theorem resultRowsFor_mem (did : Nat) (lookup : String → Option Nat) :
    ∀ (dets : List BackendDetection) (nid : Nat),
      ∀ r ∈ resultRowsFor did lookup dets nid,
        ∃ det ∈ dets, r.plateNumber = det.plate_number ∧
          r.licensePlateId = linkOf lookup det.plate_number ∧
          r.detectionId = did := by
  intro dets
  induction dets with
  | nil => intro nid r hr; exact absurd hr (List.not_mem_nil r)
  | cons det rest ih =>
    intro nid r hr
    rw [resultRowsFor] at hr
    rcases List.mem_cons.mp hr with rfl | hr2
    · exact ⟨det, List.mem_cons_self det rest, rfl, rfl, rfl⟩
    · rcases ih (nid + 1) r hr2 with ⟨det2, hdet2, h1, h2, h3⟩
      exact ⟨det2, List.mem_cons_of_mem det hdet2, h1, h2, h3⟩

theorem ingest_success_eq (now : Int) (s : Store) (resp : ApiResponse)
    (source url : String) (dets : List BackendDetection)
    (hdet : resp.detections = some dets) (hne : dets ≠ [])
    (hid : s.nextDetectionId ≠ 0) :
    insertDetectionAndResults (fun _ => false) now s resp source url
      = (ingestTxResult now s dets source url resp, .ok (some s.nextDetectionId)) := by
  have hlen : ¬dets.length = 0 := fun h => hne (List.length_eq_zero.mp h)
  simp [insertDetectionAndResults, hdet, hlen, mkDetectionRow, hid, ingestTxResult,
    s1Store, s2Store, txLookup]
  rfl

theorem s2Store_detections (now : Int) (s : Store) (dets : List BackendDetection)
    (source url : String) (resp : ApiResponse) :
    (s2Store now s dets source url resp).detections
      = s.detections ++ [mkDetectionRow s now source url resp] := by
  rw [s2Store]
  split
  · exact ((upsert_preserves_others _ _).1).trans rfl
  · rfl

theorem s2Store_results (now : Int) (s : Store) (dets : List BackendDetection)
    (source url : String) (resp : ApiResponse) :
    (s2Store now s dets source url resp).results = s.results := by
  rw [s2Store]
  split
  · exact ((upsert_preserves_others _ _).2.1).trans rfl
  · rfl

theorem s2Store_nodup (now : Int) (s : Store) (dets : List BackendDetection)
    (source url : String) (resp : ApiResponse)
    (hnodup : (plateNames s).Nodup) :
    (plateNames (s2Store now s dets source url resp)).Nodup := by
  rw [s2Store]
  split
  · exact upsert_nodup _ _ hnodup
  · exact hnodup

theorem s2Store_mem (now : Int) (s : Store) (dets : List BackendDetection)
    (source url : String) (resp : ApiResponse) (pn : String) :
    pn ∈ plateNames (s2Store now s dets source url resp)
      ↔ pn ∈ plateNames s ∨ pn ∈ uniquePlateNumbers dets := by
  by_cases h : 0 < (uniquePlateNumbers dets).length
  · rw [s2Store, if_pos h, upsert_mem]
    exact Iff.rfl
  · rw [s2Store, if_neg h]
    have hnil : uniquePlateNumbers dets = [] :=
      List.eq_nil_of_length_eq_zero (Nat.eq_zero_of_not_pos h)
    rw [hnil]
    simp only [List.not_mem_nil, or_false]
    exact Iff.rfl

theorem s2Store_new (now : Int) (s : Store) (dets : List BackendDetection)
    (source url : String) (resp : ApiResponse) :
    ∀ q ∈ (s2Store now s dets source url resp).plates,
      q ∈ s.plates ∨ q.plateNumber ∉ plateNames s := by
  intro q hq
  rw [s2Store] at hq
  by_cases h : 0 < (uniquePlateNumbers dets).length
  · rw [if_pos h] at hq
    exact upsert_new _ (s1Store now s source url resp) q hq
  · rw [if_neg h] at hq
    exact Or.inl hq

theorem s2Store_superset (now : Int) (s : Store) (dets : List BackendDetection)
    (source url : String) (resp : ApiResponse) :
    ∀ q ∈ s.plates, q ∈ (s2Store now s dets source url resp).plates := by
  intro q hq
  rw [s2Store]
  split
  · exact upsert_superset _ _ q hq
  · exact hq

theorem s2Store_id_pos (now : Int) (s : Store) (dets : List BackendDetection)
    (source url : String) (resp : ApiResponse)
    (hpos : ∀ p ∈ s.plates, 0 < p.id) (hnext : 0 < s.nextPlateId) :
    ∀ p ∈ (s2Store now s dets source url resp).plates, 0 < p.id := by
  intro p hp
  rw [s2Store] at hp
  by_cases h : 0 < (uniquePlateNumbers dets).length
  · rw [if_pos h] at hp
    exact upsert_id_pos _ (s1Store now s source url resp) hpos hnext p hp
  · rw [if_neg h] at hp
    exact hpos p hp

theorem string_trim_ne_empty (pn : String) (h : jsTrim pn ≠ "") : pn ≠ "" := by
  intro he
  rw [he] at h
  exact h (by decide)

/-- C2: a successful ingestion of a response with a non-empty detections list
appends exactly one Detection row (never deduplicated, whatever the store
already holds), appends exactly one DetectedPlateResult row per detection,
keeps the plate numbers of the LicensePlate table duplicate-free, extends
them by exactly the distinct non-empty non-whitespace plate numbers of the
response, adds no plate row whose number was already present, and links every
new result row whose plate number was already stored to the id of the
existing row. -/
theorem ingest_success_counts_and_dedup (now : Int) (s : Store) (resp : ApiResponse)
    (source url : String) (dets : List BackendDetection)
    (hdet : resp.detections = some dets) (hne : dets ≠ [])
    (hid : s.nextDetectionId ≠ 0)
    (hnodup : (plateNames s).Nodup)
    (hpos : ∀ p ∈ s.plates, 0 < p.id) :
    insertDetectionAndResults (fun _ => false) now s resp source url
      = (ingestTxResult now s dets source url resp, .ok (some s.nextDetectionId)) ∧
    (ingestTxResult now s dets source url resp).detections
      = s.detections ++ [mkDetectionRow s now source url resp] ∧
    (ingestTxResult now s dets source url resp).results.length
      = s.results.length + dets.length ∧
    (plateNames (ingestTxResult now s dets source url resp)).Nodup ∧
    (∀ pn, pn ∈ plateNames (ingestTxResult now s dets source url resp)
      ↔ pn ∈ plateNames s ∨ pn ∈ uniquePlateNumbers dets) ∧
    (∀ q ∈ (ingestTxResult now s dets source url resp).plates,
      q ∈ s.plates ∨ q.plateNumber ∉ plateNames s) ∧
    (∀ p ∈ s.plates, jsTrim p.plateNumber ≠ "" →
      ∀ r ∈ (ingestTxResult now s dets source url resp).results.drop s.results.length,
        r.plateNumber = p.plateNumber → r.licensePlateId = some p.id) := by
  have hres : (ingestTxResult now s dets source url resp).results
      = s.results ++ resultRowsFor s.nextDetectionId (txLookup now s dets source url resp)
          dets (s2Store now s dets source url resp).nextResultId := by
    have h0 : (ingestTxResult now s dets source url resp).results
        = (s2Store now s dets source url resp).results
            ++ resultRowsFor s.nextDetectionId (txLookup now s dets source url resp)
                dets (s2Store now s dets source url resp).nextResultId := rfl
    rw [h0, s2Store_results]
  refine ⟨ingest_success_eq now s resp source url dets hdet hne hid, ?_, ?_, ?_, ?_, ?_, ?_⟩
  · exact s2Store_detections now s dets source url resp
  · rw [hres, List.length_append, resultRowsFor_length]
  · exact s2Store_nodup now s dets source url resp hnodup
  · intro pn
    exact s2Store_mem now s dets source url resp pn
  · intro q hq
    exact s2Store_new now s dets source url resp q hq
  · intro p hp htrim r hr hrpn
    rw [hres, List.drop_left] at hr
    obtain ⟨det, hdetmem, h1, h2, h3⟩ := resultRowsFor_mem _ _ dets _ r hr
    have hpn : det.plate_number = p.plateNumber := h1.symm.trans hrpn
    have hne2 : p.plateNumber ≠ "" := string_trim_ne_empty _ htrim
    have hinupns : p.plateNumber ∈ uniquePlateNumbers dets := by
      rw [uniquePlateNumbers, jsSetDedup_mem]
      refine List.mem_filter.mpr ⟨List.mem_map.mpr ⟨det, hdetmem, hpn⟩, ?_⟩
      simp [hne2, htrim]
    have hlenu : 0 < (uniquePlateNumbers dets).length :=
      List.length_pos.mpr (List.ne_nil_of_mem hinupns)
    have hp2 : p ∈ (s2Store now s dets source url resp).plates :=
      s2Store_superset now s dets source url resp p hp
    have hnd2 : (plateNames (s2Store now s dets source url resp)).Nodup :=
      s2Store_nodup now s dets source url resp hnodup
    have hlook : txLookup now s dets source url resp p.plateNumber = some p.id := by
      simp only [txLookup, if_pos hlenu]
      exact plateIdLookup_found _ _ p hnd2 hp2 hinupns
    have hpid : p.id ≠ 0 := Nat.pos_iff_ne_zero.mp (hpos p hp)
    rw [h2, hpn]
    simp [linkOf, hlook, hne2, hpid]

/-- Witness for C2: ingesting the sample response into the sample store,
whose plate table already holds one of the two plate numbers. -/
theorem ingest_success_counts_and_dedup_witness :
    insertDetectionAndResults (fun _ => false) 0 sampleStore sampleResp "upload" "img.jpg"
      = (ingestTxResult 0 sampleStore sampleDets "upload" "img.jpg" sampleResp,
          .ok (some sampleStore.nextDetectionId)) ∧
    (ingestTxResult 0 sampleStore sampleDets "upload" "img.jpg" sampleResp).detections
      = sampleStore.detections ++ [mkDetectionRow sampleStore 0 "upload" "img.jpg" sampleResp] ∧
    (ingestTxResult 0 sampleStore sampleDets "upload" "img.jpg" sampleResp).results.length
      = sampleStore.results.length + sampleDets.length ∧
    (plateNames (ingestTxResult 0 sampleStore sampleDets "upload" "img.jpg" sampleResp)).Nodup ∧
    (∀ pn, pn ∈ plateNames (ingestTxResult 0 sampleStore sampleDets "upload" "img.jpg" sampleResp)
      ↔ pn ∈ plateNames sampleStore ∨ pn ∈ uniquePlateNumbers sampleDets) ∧
    (∀ q ∈ (ingestTxResult 0 sampleStore sampleDets "upload" "img.jpg" sampleResp).plates,
      q ∈ sampleStore.plates ∨ q.plateNumber ∉ plateNames sampleStore) ∧
    (∀ p ∈ sampleStore.plates, jsTrim p.plateNumber ≠ "" →
      ∀ r ∈ (ingestTxResult 0 sampleStore sampleDets "upload" "img.jpg" sampleResp).results.drop
          sampleStore.results.length,
        r.plateNumber = p.plateNumber → r.licensePlateId = some p.id) :=
  ingest_success_counts_and_dedup 0 sampleStore sampleResp "upload" "img.jpg" sampleDets
    rfl (by decide) (by decide) (by decide) (by decide)
